import Mathlib

/-!
Shallow embedding of the Creem SDK webhook pipeline
(`webhooksResource` in the webhook source module): signature
verification (`generateSignature` / `verifySignature`), payload parsing
(`parseWebhookEvent` with the `isWebhookEvent` / `isWebhookEntity`
guards), key normalization (`normalizeWebhookData`, delegating to the
`toCamelCase` utility) and the `handleEvents` dispatcher.

JavaScript strings are modelled as Lean `String`, byte buffers as
`List Nat` (each element `< 256`), JSON values as an inductive `Json`
type with integer numbers (no claim depends on non-integer numerics),
and exceptions as `Except` / `Option` results.  Node's
`crypto.createHmac("sha256", ...)` is embedded as a full HMAC-SHA-256
over `Nat` arithmetic, and `Buffer.from(string)` as UTF-8 encoding.
-/

namespace Creem

/-! ## Bytes: UTF-8 encoding (`Buffer.from(string)`) -/

/-- UTF-8 encoding of a single Unicode scalar value, one byte list per
character.  Multi-byte lead bytes are written with `+` over disjoint
bit ranges (equal to the usual bitwise-or form). -/
def utf8Char (c : Char) : List Nat :=
  if c.toNat < 128 then [c.toNat]
  else if c.toNat < 2048 then [192 + c.toNat / 64, 128 + c.toNat % 64]
  else if c.toNat < 65536 then
    [224 + c.toNat / 4096, 128 + c.toNat / 64 % 64, 128 + c.toNat % 64]
  else
    [240 + c.toNat / 262144, 128 + c.toNat / 4096 % 64,
     128 + c.toNat / 64 % 64, 128 + c.toNat % 64]

/-- `Buffer.from(s)` with node's default `utf8` encoding. -/
def utf8 (s : String) : List Nat :=
  (s.toList.map utf8Char).flatten

/-! ## SHA-256 over `Nat` (node `crypto`, consumed as given by the SDK) -/

/-- Truncation to a 32-bit word. -/
def w32 (n : Nat) : Nat := n % 4294967296

/-- 32-bit right rotation. -/
def rotr (k x : Nat) : Nat := w32 (x / 2 ^ k + x * 2 ^ (32 - k))

/-- SHA-256 small sigma 0. -/
def ssig0 (x : Nat) : Nat := (rotr 7 x) ^^^ (rotr 18 x) ^^^ (x / 2 ^ 3)

/-- SHA-256 small sigma 1. -/
def ssig1 (x : Nat) : Nat := (rotr 17 x) ^^^ (rotr 19 x) ^^^ (x / 2 ^ 10)

/-- SHA-256 big sigma 0. -/
def bsig0 (x : Nat) : Nat := (rotr 2 x) ^^^ (rotr 13 x) ^^^ (rotr 22 x)

/-- SHA-256 big sigma 1. -/
def bsig1 (x : Nat) : Nat := (rotr 6 x) ^^^ (rotr 11 x) ^^^ (rotr 25 x)

/-- SHA-256 round constants. -/
def shaK : List Nat :=
  [1116352408, 1899447441, 3049323471, 3921009573, 961987163,
   1508970993, 2453635748, 2870763221, 3624381080, 310598401,
   607225278, 1426881987, 1925078388, 2162078206, 2614888103,
   3248222580, 3835390401, 4022224774, 264347078, 604807628,
   770255983, 1249150122, 1555081692, 1996064986, 2554220882,
   2821834349, 2952996808, 3210313671, 3336571891, 3584528711,
   113926993, 338241895, 666307205, 773529912, 1294757372,
   1396182291, 1695183700, 1986661051, 2177026350, 2456956037,
   2730485921, 2820302411, 3259730800, 3345764771, 3516065817,
   3600352804, 4094571909, 275423344, 430227734, 506948616,
   659060556, 883997877, 958139571, 1322822218, 1537002063,
   1747873779, 1955562222, 2024104815, 2227730452, 2361852424,
   2428436474, 2756734187, 3204031479, 3329325298]

/-- SHA-256 initial hash value. -/
def shaH0 : List Nat :=
  [1779033703, 3144134277, 1013904242, 2773480762,
   1359893119, 2600822924, 528734635, 1541459225]

/-- Big-endian byte decomposition of a 64-bit length field. -/
def be64 (n : Nat) : List Nat :=
  [n / 2 ^ 56 % 256, n / 2 ^ 48 % 256, n / 2 ^ 40 % 256, n / 2 ^ 32 % 256,
   n / 2 ^ 24 % 256, n / 2 ^ 16 % 256, n / 2 ^ 8 % 256, n % 256]

/-- Big-endian byte decomposition of a 32-bit word. -/
def be32 (n : Nat) : List Nat :=
  [n / 2 ^ 24 % 256, n / 2 ^ 16 % 256, n / 2 ^ 8 % 256, n % 256]

/-- SHA-256 padding: append `0x80`, zero bytes to 56 mod 64, then the
bit length as 8 big-endian bytes. -/
def sha256pad (msg : List Nat) : List Nat :=
  msg ++ [128] ++ List.replicate ((119 - msg.length % 64) % 64) 0 ++
    be64 (8 * msg.length)

/-- Split a byte list into 64-byte blocks, fuel-indexed so that the
recursion is structural (the fuel `l.length` always suffices because
every step consumes at least one element). -/
def chunk64Fuel : Nat → List Nat → List (List Nat)
  | 0, _ => []
  | _, [] => []
  | fuel + 1, l => l.take 64 :: chunk64Fuel fuel (l.drop 64)

/-- Split a byte list into 64-byte blocks. -/
def chunk64 (l : List Nat) : List (List Nat) :=
  chunk64Fuel l.length l

/-- Assemble a 64-byte block into 16 big-endian 32-bit words. -/
def words16 (block : List Nat) : List Nat :=
  (List.range 16).map fun i =>
    block.getD (4 * i) 0 * 2 ^ 24 + block.getD (4 * i + 1) 0 * 2 ^ 16 +
      block.getD (4 * i + 2) 0 * 2 ^ 8 + block.getD (4 * i + 3) 0

/-- Extend the 16-word message schedule by `n` further words. -/
def schedExtend : Nat → List Nat → List Nat
  | 0, ws => ws
  | n + 1, ws =>
    let L := ws.length
    schedExtend n (ws ++ [w32 (ssig1 (ws.getD (L - 2) 0) + ws.getD (L - 7) 0 +
      ssig0 (ws.getD (L - 15) 0) + ws.getD (L - 16) 0)])

/-- One SHA-256 round: state is the 8-word list `[a,b,c,d,e,f,g,h]`. -/
def shaRound (st : List Nat) (kw : Nat × Nat) : List Nat :=
  let a := st.getD 0 0
  let b := st.getD 1 0
  let c := st.getD 2 0
  let d := st.getD 3 0
  let e := st.getD 4 0
  let f := st.getD 5 0
  let g := st.getD 6 0
  let h := st.getD 7 0
  let ch := (e &&& f) ^^^ ((4294967295 - w32 e) &&& g)
  let maj := (a &&& b) ^^^ (a &&& c) ^^^ (b &&& c)
  let t1 := w32 (h + bsig1 e + ch + kw.1 + kw.2)
  let t2 := w32 (bsig0 a + maj)
  [w32 (t1 + t2), a, b, c, w32 (d + t1), e, f, g]

/-- SHA-256 compression of one block into the running hash. -/
def shaCompress (H : List Nat) (block : List Nat) : List Nat :=
  let ws := schedExtend 48 (words16 block)
  let st := (shaK.zip ws).foldl shaRound H
  (H.zip st).map fun p => w32 (p.1 + p.2)

/-- SHA-256 of a byte list, as a 32-byte digest. -/
def sha256 (msg : List Nat) : List Nat :=
  ((chunk64 (sha256pad msg)).foldl shaCompress shaH0).map be32 |>.flatten

/-- HMAC-SHA-256 (`crypto.createHmac("sha256", key).update(msg)`). -/
def hmacSha256 (key msg : List Nat) : List Nat :=
  let k0 := if 64 < key.length then sha256 key else key
  let k := k0 ++ List.replicate (64 - k0.length) 0
  let ipad := k.map (· ^^^ 54)
  let opad := k.map (· ^^^ 92)
  sha256 (opad ++ sha256 (ipad ++ msg))

/-! ## Hex digest (`.digest("hex")`, lowercase) -/

/-- One lowercase hex digit, `n < 16`. -/
def hexDigit (n : Nat) : Char :=
  match n with
  | 0 => '0' | 1 => '1' | 2 => '2' | 3 => '3' | 4 => '4' | 5 => '5'
  | 6 => '6' | 7 => '7' | 8 => '8' | 9 => '9' | 10 => 'a' | 11 => 'b'
  | 12 => 'c' | 13 => 'd' | 14 => 'e' | _ => 'f'

/-- Two lowercase hex digits of one byte. -/
def hexByte (b : Nat) : List Char :=
  [hexDigit (b / 16 % 16), hexDigit (b % 16)]

/-- Lowercase hex encoding of a byte list. -/
def hexEncode (bs : List Nat) : String :=
  String.mk (bs.map hexByte).flatten

/-! ## The SDK's signature functions (webhook source module) -/

/-- `generateSignature(payload, secret)`:
`crypto.createHmac("sha256", secret).update(payload).digest("hex")`. -/
def generateSignature (payload secret : String) : String :=
  hexEncode (hmacSha256 (utf8 secret) (utf8 payload))

/-- Node's `crypto.timingSafeEqual`: throws (`none`) when the buffers
have different lengths; otherwise a constant-time comparison that
accumulates the xor of every byte pair. -/
def timingSafeEqual (a b : List Nat) : Option Bool :=
  if a.length = b.length then
    some (((a.zip b).foldl (fun acc p => acc ||| (p.1 ^^^ p.2)) 0) = 0)
  else none

/-- `verifySignature(payload, signature, secret)`: compares the UTF-8
bytes of the supplied signature against the expected hex digest, with
the length short-circuit guarding the `timingSafeEqual` call.  `none`
models an exception escaping (it never does, see `verifySignature_isSome`
inside the C1 theorem). -/
def verifySignature (payload signature secret : String) : Option Bool :=
  let expectedSignature := generateSignature payload secret
  let signatureBuffer := utf8 signature
  let expectedBuffer := utf8 expectedSignature
  if signatureBuffer.length ≠ expectedBuffer.length then some false
  else timingSafeEqual signatureBuffer expectedBuffer

/-- Instrumented copy of `verifySignature`: the second component
records whether the byte-wise comparison (`timingSafeEqual`) ran. -/
def verifySignatureInstr (payload signature secret : String) :
    Option Bool × Bool :=
  let expectedSignature := generateSignature payload secret
  let signatureBuffer := utf8 signature
  let expectedBuffer := utf8 expectedSignature
  if signatureBuffer.length ≠ expectedBuffer.length then (some false, false)
  else (timingSafeEqual signatureBuffer expectedBuffer, true)

/-! ## Facts about the signature layer -/

theorem utf8Char_ne_nil (c : Char) : utf8Char c ≠ [] := by
  unfold utf8Char
  split
  · simp
  · split
    · simp
    · split <;> simp

theorem utf8Char_ascii {c : Char} (h : c.toNat < 128) : utf8Char c = [c.toNat] := by
  unfold utf8Char
  rw [if_pos h]

theorem char_eq_of_toNat {c d : Char} (h : c.toNat = d.toNat) : c = d := by
  rw [← Char.ofNat_toNat c, ← Char.ofNat_toNat d, h]

theorem utf8Char_head_ascii {c : Char} {b : Nat} {t : List Nat}
    (h : utf8Char c = b :: t) (hb : b < 128) : c.toNat = b ∧ t = [] := by
  by_cases hc : c.toNat < 128
  · rw [utf8Char_ascii hc] at h
    cases h
    exact ⟨rfl, rfl⟩
  · exfalso
    unfold utf8Char at h
    rw [if_neg hc] at h
    split at h <;> [skip; split at h] <;> injection h with h1 _ <;> omega

theorem utf8_ascii_inj : ∀ l₁ l₂ : List Char,
    (∀ b ∈ (l₂.map utf8Char).flatten, b < 128) →
    (l₁.map utf8Char).flatten = (l₂.map utf8Char).flatten → l₁ = l₂ := by
  intro l₁ l₂
  induction l₂ generalizing l₁ with
  | nil =>
    intro _ h
    cases l₁ with
    | nil => rfl
    | cons d ds =>
      simp only [List.map_cons, List.flatten_cons, List.map_nil,
        List.flatten_nil, List.append_eq_nil] at h
      exact absurd h.1 (utf8Char_ne_nil d)
  | cons c cs ih =>
    intro hall h
    rcases hec : utf8Char c with _ | ⟨b, t⟩
    · exact absurd hec (utf8Char_ne_nil c)
    have hb : b < 128 := by
      refine hall b ?_
      simp only [List.map_cons, List.flatten_cons, List.mem_append]
      exact Or.inl (by rw [hec]; exact List.mem_cons_self b t)
    obtain ⟨hcb, rfl⟩ := utf8Char_head_ascii hec hb
    cases l₁ with
    | nil =>
      simp only [List.map_nil, List.flatten_nil, List.map_cons,
        List.flatten_cons, hec] at h
      exact absurd h.symm (List.cons_ne_nil _ _)
    | cons d ds =>
      rcases hed : utf8Char d with _ | ⟨b', t'⟩
      · exact absurd hed (utf8Char_ne_nil d)
      simp only [List.map_cons, List.flatten_cons, hec, hed,
        List.cons_append, List.nil_append, List.cons.injEq] at h
      obtain ⟨rfl, htail⟩ := h
      obtain ⟨hdb, rfl⟩ := utf8Char_head_ascii hed hb
      have hdc : d = c := char_eq_of_toNat (hdb.trans hcb.symm)
      subst hdc
      simp only [List.nil_append] at htail
      have : ds = cs := by
        refine ih ds (fun x hx => hall x ?_) htail
        simp only [List.map_cons, List.flatten_cons, List.mem_append]
        exact Or.inr hx
      rw [this]

theorem utf8_inj_of_ascii {s t : String}
    (ht : ∀ b ∈ utf8 t, b < 128) (h : utf8 s = utf8 t) : s = t := by
  have := utf8_ascii_inj s.toList t.toList ht h
  cases s; cases t; simp_all [String.toList]

theorem hexDigit_toNat_lt (n : Nat) : (hexDigit n).toNat < 128 := by
  unfold hexDigit
  split <;> decide

theorem hexEncode_ascii (bs : List Nat) : ∀ b ∈ utf8 (hexEncode bs), b < 128 := by
  intro b hb
  unfold utf8 hexEncode at hb
  rw [List.mem_flatten] at hb
  obtain ⟨l, hl, hbl⟩ := hb
  rw [List.mem_map] at hl
  obtain ⟨ch, hch, rfl⟩ := hl
  have hch128 : ch.toNat < 128 := by
    have : ch ∈ ((bs.map hexByte).flatten : List Char) := by
      simpa [String.toList] using hch
    rw [List.mem_flatten] at this
    obtain ⟨w, hw, hcw⟩ := this
    rw [List.mem_map] at hw
    obtain ⟨x, _, rfl⟩ := hw
    unfold hexByte at hcw
    rcases List.mem_cons.mp hcw with rfl | hcw2
    · exact hexDigit_toNat_lt _
    rcases List.mem_cons.mp hcw2 with rfl | hcw3
    · exact hexDigit_toNat_lt _
    · cases hcw3
  rw [utf8Char_ascii hch128, List.mem_singleton] at hbl
  omega

theorem nat_or_eq_zero (a b : Nat) : a ||| b = 0 ↔ a = 0 ∧ b = 0 := by
  constructor
  · intro h
    refine ⟨Nat.zero_of_testBit_eq_false fun i => ?_,
      Nat.zero_of_testBit_eq_false fun i => ?_⟩ <;>
    · have h2 := congrArg (fun n => Nat.testBit n i) h
      simp only [Nat.testBit_lor, Nat.zero_testBit, Bool.or_eq_false_iff] at h2
      simp [h2]
  · rintro ⟨rfl, rfl⟩; rfl

theorem foldOr_eq_zero (l : List (Nat × Nat)) : ∀ init : Nat,
    (l.foldl (fun acc p => acc ||| (p.1 ^^^ p.2)) init = 0 ↔
      init = 0 ∧ ∀ p ∈ l, p.1 = p.2) := by
  induction l with
  | nil => simp
  | cons p l ih =>
    intro init
    rw [List.foldl_cons, ih, nat_or_eq_zero, Nat.xor_eq_zero,
      List.forall_mem_cons]
    tauto

theorem eq_of_zip_eq : ∀ a b : List Nat, a.length = b.length →
    (∀ p ∈ a.zip b, p.1 = p.2) → a = b := by
  intro a
  induction a with
  | nil =>
    intro b h _
    cases b with
    | nil => rfl
    | cons y ys => simp at h
  | cons x xs ih =>
    intro b h hall
    cases b with
    | nil => simp at h
    | cons y ys =>
      have hx : x = y := hall (x, y) (by simp [List.zip_cons_cons])
      have ht : xs = ys := by
        refine ih ys (by simpa using h) fun p hp => hall p ?_
        simp [List.zip_cons_cons, hp]
      rw [hx, ht]

theorem zip_self_eq (a : List Nat) : ∀ p ∈ a.zip a, p.1 = p.2 := by
  induction a with
  | nil => simp
  | cons x xs ih =>
    intro p hp
    rw [List.zip_cons_cons, List.mem_cons] at hp
    rcases hp with rfl | hp
    · rfl
    · exact ih p hp

theorem timingSafeEqual_eq {a b : List Nat} (h : a.length = b.length) :
    timingSafeEqual a b = some (decide (a = b)) := by
  unfold timingSafeEqual
  rw [if_pos h]
  congr 1
  rw [decide_eq_decide, foldOr_eq_zero]
  constructor
  · rintro ⟨_, hall⟩
    exact eq_of_zip_eq a b h hall
  · rintro rfl
    exact ⟨rfl, zip_self_eq a⟩

/-- `verifySignature` decides string equality with the expected hex
digest (the UTF-8 comparison is injective because the digest is pure
ASCII). -/
theorem verifySignature_eq (P S sig : String) :
    verifySignature P sig S = some (decide (sig = generateSignature P S)) := by
  unfold verifySignature
  by_cases hl : (utf8 sig).length = (utf8 (generateSignature P S)).length
  · rw [if_neg (by simp [hl]), timingSafeEqual_eq hl]
    congr 1
    rw [decide_eq_decide]
    constructor
    · intro h
      exact utf8_inj_of_ascii (by exact hexEncode_ascii _) h
    · rintro rfl; rfl
  · rw [if_pos (by simpa using hl)]
    have : sig ≠ generateSignature P S := by
      intro hEq; exact hl (by rw [hEq])
    simp [this]

/-- C1.  `verify(P, hex(HMAC-SHA256(S,P)), S)` returns `true`; any
other supplied signature string returns `false`; a byte-length mismatch
returns `false` without running the byte-wise comparison
(`verifySignatureInstr`'s flag stays `false`); and `verifySignature`
never throws (`isSome` always holds: the guarded `timingSafeEqual` call
can never raise its length exception). -/
theorem verifySignature_spec :
    (∀ P S : String, verifySignature P (generateSignature P S) S = some true) ∧
    (∀ P S sig : String, sig ≠ generateSignature P S →
      verifySignature P sig S = some false) ∧
    (∀ P S sig : String,
      (utf8 sig).length ≠ (utf8 (generateSignature P S)).length →
      verifySignatureInstr P sig S = (some false, false)) ∧
    (∀ P S sig : String, (verifySignature P sig S).isSome = true) := by
  refine ⟨?_, ?_, ?_, ?_⟩
  · intro P S
    rw [verifySignature_eq]
    simp
  · intro P S sig h
    rw [verifySignature_eq]
    simp [h]
  · intro P S sig h
    unfold verifySignatureInstr
    rw [if_pos (by simpa using h)]
  · intro P S sig
    rw [verifySignature_eq]
    rfl

set_option maxRecDepth 100000 in
/-- Witness for C1 at concrete inputs: the matching digest verifies,
a mismatched hex string is refused, and a length-mismatched signature
is refused without running the comparison. -/
theorem verifySignature_spec_witness :
    verifySignature "payload" (generateSignature "payload" "secret") "secret"
        = some true ∧
    verifySignature "payload"
        "00112233445566778899aabbccddeeff00112233445566778899aabbccddeeff"
        "secret" = some false ∧
    verifySignatureInstr "payload" "x" "secret" = (some false, false) :=
  ⟨verifySignature_spec.1 "payload" "secret",
   verifySignature_spec.2.1 "payload" "secret"
     "00112233445566778899aabbccddeeff00112233445566778899aabbccddeeff"
     (by decide),
   verifySignature_spec.2.2.1 "payload" "secret" "x" (by decide)⟩

/-! ## JSON values

JS values decoded by `JSON.parse`.  Numbers are modelled as integers:
no claim depends on the value of a non-integer numeric literal, only on
the `typeof x === "number"` test, which holds for `.num` uniformly. -/

inductive Json where
  | null
  | bool (b : Bool)
  | num (n : Int)
  | str (s : String)
  | arr (elems : List Json)
  | obj (fields : List (String × Json))

/-- JS property assignment on an ordered field list: an existing key
keeps its position and takes the new value, a new key is appended. -/
def setKey : List (String × Json) → String → Json → List (String × Json)
  | [], k, v => [(k, v)]
  | (k', v') :: rest, k, v =>
    if k' = k then (k', v) :: rest else (k', v') :: setKey rest k v

/-- Property lookup in an ordered field list. -/
def assoc : List (String × Json) → String → Option Json
  | [], _ => none
  | (k', v) :: rest, k => if k' = k then some v else assoc rest k

/-- JS property read `j[k]` (`none` models `undefined`). -/
def lookupField : Json → String → Option Json
  | .obj fields, k => assoc fields k
  | _, _ => none

/-! ## `JSON.parse` (fuel-indexed recursive-descent parser) -/

/-- JSON insignificant whitespace. -/
def isJsonWs (c : Char) : Bool :=
  c == ' ' || c == '\t' || c == '\n' || c == '\r'

/-- Drop leading JSON whitespace. -/
def skipWs : List Char → List Char
  | [] => []
  | c :: rest => if isJsonWs c then skipWs rest else c :: rest

/-- Value of a hex digit in a `\u` escape. -/
def hexCharVal (c : Char) : Option Nat :=
  if 48 ≤ c.toNat ∧ c.toNat ≤ 57 then some (c.toNat - 48)
  else if 97 ≤ c.toNat ∧ c.toNat ≤ 102 then some (c.toNat - 87)
  else if 65 ≤ c.toNat ∧ c.toNat ≤ 70 then some (c.toNat - 55)
  else none

/-- Parse the body of a JSON string after the opening quote, returning
the decoded characters and the rest of the input. -/
def parseStringChars : List Char → Option (List Char × List Char)
  | [] => none
  | '"' :: rest => some ([], rest)
  | '\\' :: 'u' :: a :: b :: c :: d :: rest => do
    let va ← hexCharVal a
    let vb ← hexCharVal b
    let vc ← hexCharVal c
    let vd ← hexCharVal d
    let (l, r) ← parseStringChars rest
    pure (Char.ofNat (va * 4096 + vb * 256 + vc * 16 + vd) :: l, r)
  | '\\' :: e :: rest => do
    let c ← match e with
      | '"' => some '"'
      | '\\' => some '\\'
      | '/' => some '/'
      | 'b' => some (Char.ofNat 8)
      | 'f' => some (Char.ofNat 12)
      | 'n' => some '\n'
      | 'r' => some (Char.ofNat 13)
      | 't' => some '\t'
      | _ => none
    let (l, r) ← parseStringChars rest
    pure (c :: l, r)
  | c :: rest =>
    if c.toNat < 32 then none
    else do
      let (l, r) ← parseStringChars rest
      pure (c :: l, r)

/-- Numeric value of a digit list. -/
def natOfDigits (ds : List Char) : Nat :=
  ds.foldl (fun a c => 10 * a + (c.toNat - 48)) 0

/-- Parse a JSON number (grammar `-? int frac? exp?`); the produced
value keeps the integer part (see the module comment on numerics). -/
def parseNumber (cs : List Char) : Option (Json × List Char) :=
  let (neg, cs1) := match cs with
    | '-' :: rest => (true, rest)
    | _ => (false, cs)
  let (ds, cs2) := cs1.span Char.isDigit
  if ds = [] then none
  else if ds.length > 1 ∧ ds.headD '0' = '0' then none
  else
    let (cs4, ok1) := match cs2 with
      | '.' :: rest =>
        let (fs, r) := rest.span Char.isDigit
        (r, !fs.isEmpty)
      | _ => (cs2, true)
    let (cs6, ok2) := match cs4 with
      | 'e' :: rest | 'E' :: rest =>
        let rest2 := match rest with
          | '+' :: r => r
          | '-' :: r => r
          | _ => rest
        let (es, r) := rest2.span Char.isDigit
        (r, !es.isEmpty)
      | _ => (cs4, true)
    if ok1 && ok2 then
      some (.num (if neg then -(natOfDigits ds : Int) else (natOfDigits ds : Int)), cs6)
    else none

/-- `JSON.parse` duplicate-key semantics: later occurrences overwrite,
first occurrence fixes the position. -/
def objFromMembers (kvs : List (String × Json)) : List (String × Json) :=
  kvs.foldl (fun acc p => setKey acc p.1 p.2) []

mutual

/-- Parse one JSON value.  The fuel only bounds nesting-driven
recursion; `jsonParse` supplies enough for any input. -/
def parseVal : Nat → List Char → Option (Json × List Char)
  | 0, _ => none
  | fuel + 1, cs =>
    match cs with
    | 'n' :: 'u' :: 'l' :: 'l' :: rest => some (.null, rest)
    | 't' :: 'r' :: 'u' :: 'e' :: rest => some (.bool true, rest)
    | 'f' :: 'a' :: 'l' :: 's' :: 'e' :: rest => some (.bool false, rest)
    | '"' :: rest => do
      let (l, r) ← parseStringChars rest
      pure (.str (String.mk l), r)
    | '[' :: rest =>
      (match skipWs rest with
       | ']' :: r => some (.arr [], r)
       | cs2 => do
         let (vs, r) ← parseElems fuel cs2
         pure (.arr vs, r))
    | '{' :: rest =>
      (match skipWs rest with
       | '}' :: r => some (.obj [], r)
       | cs2 => do
         let (kvs, r) ← parseMembers fuel cs2
         pure (.obj (objFromMembers kvs), r))
    | _ => parseNumber cs

/-- Parse a nonempty comma-separated element list up to `]`. -/
def parseElems : Nat → List Char → Option (List Json × List Char)
  | 0, _ => none
  | fuel + 1, cs => do
    let (v, r) ← parseVal fuel (skipWs cs)
    match skipWs r with
    | ',' :: r2 => do
      let (vs, r3) ← parseElems fuel r2
      pure (v :: vs, r3)
    | ']' :: r2 => pure ([v], r2)
    | _ => none

/-- Parse a nonempty comma-separated member list up to `}`. -/
def parseMembers : Nat → List Char → Option (List (String × Json) × List Char)
  | 0, _ => none
  | fuel + 1, cs =>
    match skipWs cs with
    | '"' :: r => do
      let (k, r1) ← parseStringChars r
      match skipWs r1 with
      | ':' :: r2 => do
        let (v, r3) ← parseVal fuel (skipWs r2)
        (match skipWs r3 with
         | ',' :: r4 => do
           let (kvs, r5) ← parseMembers fuel r4
           pure ((String.mk k, v) :: kvs, r5)
         | '}' :: r4 => pure ([(String.mk k, v)], r4)
         | _ => none)
      | _ => none
    | _ => none

end

/-- `JSON.parse(s)`: `none` models the thrown `SyntaxError`. -/
def jsonParse (s : String) : Option Json :=
  match parseVal (s.length + 1) (skipWs s.toList) with
  | some (v, rest) => if skipWs rest = [] then some v else none
  | none => none

/-! ## Webhook event guards and parsing -/

/-- The closed set of entity type discriminators. -/
def webhookEntityTypes : List String :=
  ["checkout", "customer", "order", "product", "subscription", "refund",
   "dispute", "transaction"]

/-- `isWebhookEntity(obj)`: a truthy non-primitive whose `object`
property is a string in the closed set.  JS `typeof x === "object"`
also admits arrays, but an array decoded from JSON has no `object`
property, so the string test fails for them exactly as here. -/
def isWebhookEntity (j : Json) : Bool :=
  match j with
  | .obj fields =>
    match assoc fields "object" with
    | some (.str s) => webhookEntityTypes.contains s
    | _ => false
  | _ => false

/-- `isWebhookEvent(obj)`: string `eventType`, string `id`, numeric
`created_at`, and an `object` property that is a webhook entity. -/
def isWebhookEvent (j : Json) : Bool :=
  match j with
  | .obj fields =>
    (match assoc fields "eventType" with
     | some (.str _) => true
     | _ => false) &&
    (match assoc fields "id" with
     | some (.str _) => true
     | _ => false) &&
    (match assoc fields "created_at" with
     | some (.num _) => true
     | _ => false) &&
    (match assoc fields "object" with
     | some o => isWebhookEntity o
     | none => false)
  | _ => false

/-- Errors escaping the webhook pipeline.  `jsonSyntaxError` is the
`SyntaxError` thrown by `JSON.parse`; `errorMsg` is `new Error(msg)`;
`handlerError` is an exception thrown by a user handler, carried
verbatim; `cryptoError` is the (provably unreachable) length exception
of `crypto.timingSafeEqual`. -/
inductive WebhookError (ε : Type) where
  | jsonSyntaxError
  | errorMsg (msg : String)
  | handlerError (e : ε)
  | cryptoError
  deriving DecidableEq

/-- `parseWebhookEvent(payload)`. -/
def parseWebhookEvent (ε : Type) (payload : String) :
    Except (WebhookError ε) Json :=
  match jsonParse payload with
  | none => .error .jsonSyntaxError
  | some event =>
    if isWebhookEvent event then .ok event
    else .error (.errorMsg "Invalid webhook event structure")

/-! ## Key normalization

Modelled from the spec: the `toCamelCase` deep key-casing converter
lives in the `utils` module, which is not among the provided source
files (only its import and call sites are).  The definitions below
follow the spec's §4.3 words: a key in the wire convention (nonempty
lowercase-alphanumeric words joined by underscores) is rewritten to the
public convention (first word kept, subsequent words capitalized,
separators dropped); any other key, and every non-key value, is left
unchanged; the transform recurses into object fields and array
elements. -/

/-- A character allowed inside a wire-convention word. -/
def isLowerDigit (c : Char) : Bool :=
  (97 ≤ c.toNat && c.toNat ≤ 122) || (48 ≤ c.toNat && c.toNat ≤ 57)

/-- Split a character list at underscores. -/
def splitUnderscore : List Char → List (List Char)
  | [] => [[]]
  | c :: rest =>
    if c = '_' then [] :: splitUnderscore rest
    else
      match splitUnderscore rest with
      | [] => [[c]]
      | w :: ws => (c :: w) :: ws

/-- Capitalize the first character of a word. -/
def capitalizeWord : List Char → List Char
  | [] => []
  | c :: cs => c.toUpper :: cs

/-- Modelled from the spec: does a key match the wire convention
(nonempty lowercase words joined by underscores)? -/
def isSnakeKey (l : List Char) : Bool :=
  !l.isEmpty && (splitUnderscore l).all fun w => !w.isEmpty && w.all isLowerDigit

/-- Join the split words in the public convention. -/
def camelJoin (l : List Char) : List Char :=
  match splitUnderscore l with
  | [] => l
  | w :: ws => w ++ (ws.map capitalizeWord).flatten

/-- Modelled from the spec: convert one mapping key, leaving keys not
in the wire convention unchanged. -/
def camelKey (s : String) : String :=
  if isSnakeKey s.toList then String.mk (camelJoin s.toList) else s

mutual

/-- Modelled from the spec: `toCamelCase` recursively renames every
object key via `camelKey`, descends into arrays and objects, and
leaves scalars untouched. -/
def toCamelCase : Json → Json
  | .null => .null
  | .bool b => .bool b
  | .num n => .num n
  | .str s => .str s
  | .arr elems => .arr (toCamelCaseList elems)
  | .obj fields => .obj (toCamelCaseFields fields)

/-- `toCamelCase` over array elements. -/
def toCamelCaseList : List Json → List Json
  | [] => []
  | v :: rest => toCamelCase v :: toCamelCaseList rest

/-- `toCamelCase` over object fields. -/
def toCamelCaseFields : List (String × Json) → List (String × Json)
  | [] => []
  | (k, v) :: rest => (camelKey k, toCamelCase v) :: toCamelCaseFields rest

end

/-- `normalizeWebhookData(data)`: `toCamelCase(data)` (the TS cast is
erased). -/
def normalizeWebhookData (data : Json) : Json :=
  toCamelCase data

/-! ## Handler registry and dispatch

A handler is modelled as a function from its (JSON) argument to
`Except ε Unit`: `.error e` is a thrown exception.  `handleEvents`
returns the ordered list of handler invocations actually performed
(ghost instrumentation for the dispatch claims) together with its
`void`-or-throw outcome.  Handlers run strictly sequentially and each
is awaited to completion, so this sequential trace is the execution
order. -/

/-- The optional user-supplied callbacks (`WebhookOptions` minus
`webhookSecret`). -/
structure Handlers (ε : Type) where
  onCheckoutCompleted : Option (Json → Except ε Unit) := none
  onRefundCreated : Option (Json → Except ε Unit) := none
  onDisputeCreated : Option (Json → Except ε Unit) := none
  onSubscriptionActive : Option (Json → Except ε Unit) := none
  onSubscriptionTrialing : Option (Json → Except ε Unit) := none
  onSubscriptionPaid : Option (Json → Except ε Unit) := none
  onSubscriptionPaused : Option (Json → Except ε Unit) := none
  onSubscriptionExpired : Option (Json → Except ε Unit) := none
  onSubscriptionCanceled : Option (Json → Except ε Unit) := none
  onSubscriptionUnpaid : Option (Json → Except ε Unit) := none
  onSubscriptionUpdate : Option (Json → Except ε Unit) := none
  onSubscriptionPastDue : Option (Json → Except ε Unit) := none
  onSubscriptionScheduledCancel : Option (Json → Except ε Unit) := none
  onGrantAccess : Option (Json → Except ε Unit) := none
  onRevokeAccess : Option (Json → Except ε Unit) := none

/-- Registry lookup by callback name. -/
def Handlers.get {ε : Type} (h : Handlers ε) : String → Option (Json → Except ε Unit)
  | "onCheckoutCompleted" => h.onCheckoutCompleted
  | "onRefundCreated" => h.onRefundCreated
  | "onDisputeCreated" => h.onDisputeCreated
  | "onSubscriptionActive" => h.onSubscriptionActive
  | "onSubscriptionTrialing" => h.onSubscriptionTrialing
  | "onSubscriptionPaid" => h.onSubscriptionPaid
  | "onSubscriptionPaused" => h.onSubscriptionPaused
  | "onSubscriptionExpired" => h.onSubscriptionExpired
  | "onSubscriptionCanceled" => h.onSubscriptionCanceled
  | "onSubscriptionUnpaid" => h.onSubscriptionUnpaid
  | "onSubscriptionUpdate" => h.onSubscriptionUpdate
  | "onSubscriptionPastDue" => h.onSubscriptionPastDue
  | "onSubscriptionScheduledCancel" => h.onSubscriptionScheduledCancel
  | "onGrantAccess" => h.onGrantAccess
  | "onRevokeAccess" => h.onRevokeAccess
  | _ => none

/-- One recorded handler invocation: callback name and argument. -/
structure Call where
  name : String
  arg : Json

/-- `await handlers.x?.(arg)`: an absent callback is a no-op; a present
one is invoked (recorded) and its exception becomes a `handlerError`. -/
def invoke {ε : Type} (name : String) (h : Option (Json → Except ε Unit))
    (arg : Json) : List Call × Except (WebhookError ε) Unit :=
  match h with
  | none => ([], .ok ())
  | some f =>
    ([⟨name, arg⟩],
     match f arg with
     | .ok _ => .ok ()
     | .error e => .error (.handlerError e))

/-- Sequencing of two awaited steps: the second runs only when the
first did not throw. -/
def andThen {ε : Type} (a : List Call × Except (WebhookError ε) Unit)
    (b : Unit → List Call × Except (WebhookError ε) Unit) :
    List Call × Except (WebhookError ε) Unit :=
  match a with
  | (t, .ok _) => (t ++ (b ()).1, (b ()).2)
  | (t, .error e) => (t, .error e)

/-- JS object-literal construction `{base fields..., ...spread}`:
spread entries are assigned one by one after the base fields. -/
def spreadFields (base : List (String × Json)) (j : Json) :
    List (String × Json) :=
  match j with
  | .obj kvs => kvs.foldl (fun acc p => setKey acc p.1 p.2) base
  | _ => base

/-- Property read with JS `undefined` collapsed to `null` (only applied
where the guards make the property present). -/
def eventField (ev : Json) (k : String) : Json :=
  (lookupField ev k).getD .null

/-- The argument of a specific-event handler:
`{webhookEventType, webhookId, webhookCreatedAt, ...normalizedData}`. -/
def specificCtx (ev normalized : Json) : Json :=
  .obj (spreadFields
    [("webhookEventType", eventField ev "eventType"),
     ("webhookId", eventField ev "id"),
     ("webhookCreatedAt", eventField ev "created_at")] normalized)

/-- The argument of an access-control handler:
`{reason, ...subscriptionData}`. -/
def accessCtx (reason : String) (normalized : Json) : Json :=
  .obj (spreadFields [("reason", .str reason)] normalized)

/-- The `eventType` string the `switch` scrutinizes (always a string
once `isWebhookEvent` holds). -/
def eventTypeOf (ev : Json) : String :=
  match eventField ev "eventType" with
  | .str s => s
  | _ => ""

/-- Step 6 of `handleEvents`: the `switch (event.eventType)` routing.
The if-chain is JS `switch` strict string matching; the final branch is
the `default:` arm (a `console.warn`, no handler). -/
def dispatch {ε : Type} (ev normalized : Json) (h : Handlers ε) :
    List Call × Except (WebhookError ε) Unit :=
  if eventTypeOf ev = "checkout.completed" then
    invoke "onCheckoutCompleted" h.onCheckoutCompleted (specificCtx ev normalized)
  else if eventTypeOf ev = "refund.created" then
    invoke "onRefundCreated" h.onRefundCreated (specificCtx ev normalized)
  else if eventTypeOf ev = "dispute.created" then
    invoke "onDisputeCreated" h.onDisputeCreated (specificCtx ev normalized)
  else if eventTypeOf ev = "subscription.active" then
    andThen (invoke "onGrantAccess" h.onGrantAccess
        (accessCtx "subscription_active" normalized))
      fun _ => invoke "onSubscriptionActive" h.onSubscriptionActive
        (specificCtx ev normalized)
  else if eventTypeOf ev = "subscription.trialing" then
    andThen (invoke "onGrantAccess" h.onGrantAccess
        (accessCtx "subscription_trialing" normalized))
      fun _ => invoke "onSubscriptionTrialing" h.onSubscriptionTrialing
        (specificCtx ev normalized)
  else if eventTypeOf ev = "subscription.paid" then
    andThen (invoke "onGrantAccess" h.onGrantAccess
        (accessCtx "subscription_paid" normalized))
      fun _ => invoke "onSubscriptionPaid" h.onSubscriptionPaid
        (specificCtx ev normalized)
  else if eventTypeOf ev = "subscription.paused" then
    andThen (invoke "onRevokeAccess" h.onRevokeAccess
        (accessCtx "subscription_paused" normalized))
      fun _ => invoke "onSubscriptionPaused" h.onSubscriptionPaused
        (specificCtx ev normalized)
  else if eventTypeOf ev = "subscription.expired" then
    andThen (invoke "onRevokeAccess" h.onRevokeAccess
        (accessCtx "subscription_expired" normalized))
      fun _ => invoke "onSubscriptionExpired" h.onSubscriptionExpired
        (specificCtx ev normalized)
  else if eventTypeOf ev = "subscription.canceled" then
    invoke "onSubscriptionCanceled" h.onSubscriptionCanceled (specificCtx ev normalized)
  else if eventTypeOf ev = "subscription.unpaid" then
    invoke "onSubscriptionUnpaid" h.onSubscriptionUnpaid (specificCtx ev normalized)
  else if eventTypeOf ev = "subscription.update" then
    invoke "onSubscriptionUpdate" h.onSubscriptionUpdate (specificCtx ev normalized)
  else if eventTypeOf ev = "subscription.past_due" then
    invoke "onSubscriptionPastDue" h.onSubscriptionPastDue (specificCtx ev normalized)
  else if eventTypeOf ev = "subscription.scheduled_cancel" then
    invoke "onSubscriptionScheduledCancel" h.onSubscriptionScheduledCancel
      (specificCtx ev normalized)
  else
    ([], .ok ())

/-- The configuration error message thrown when no secret is set. -/
def secretNotConfiguredMsg : String :=
  "Webhook secret not configured. Pass `webhookSecret` to `createCreem`."

/-- `handleEvents(payload, signature, handlers)` for a resource created
with `webhooksResource(secret)`.  The payload is taken as a string (the
`Buffer` branch only UTF-8-decodes it first).  Returns the invocation
trace together with the `void`-or-throw outcome. -/
def handleEvents {ε : Type} (secret : Option String)
    (payload signature : String) (h : Handlers ε) :
    List Call × Except (WebhookError ε) Unit :=
  -- 1. Validate webhook secret (`if (!secret)`: absent or empty string)
  if secret.getD "" = "" then
    ([], .error (.errorMsg secretNotConfiguredMsg))
  else
    -- 2./3. Verify signature over the payload string
    match verifySignature payload signature (secret.getD "") with
    | none => ([], .error .cryptoError)
    | some false => ([], .error (.errorMsg "Invalid webhook signature"))
    | some true =>
      -- 4. Parse and validate event
      match parseWebhookEvent ε payload with
      | .error e => ([], .error e)
      | .ok event =>
        -- 5. Normalize data (convert snake_case to camelCase)
        let normalizedObject := normalizeWebhookData (eventField event "object")
        -- 6. Route to appropriate handler
        dispatch event normalizedObject h

/-! ## Dispatch facts -/

theorem invoke_error {ε : Type} {name : String}
    {o : Option (Json → Except ε Unit)} {arg : Json} {t : List Call}
    {e : WebhookError ε} (h : invoke name o arg = (t, .error e)) :
    ∃ x, e = .handlerError x := by
  cases o with
  | none => cases h
  | some f =>
    simp only [invoke] at h
    cases hf : f arg with
    | ok u => rw [hf] at h; cases h
    | error x =>
      rw [hf] at h
      cases h
      exact ⟨x, rfl⟩

theorem andThen_error {ε : Type}
    {a : List Call × Except (WebhookError ε) Unit}
    {b : Unit → List Call × Except (WebhookError ε) Unit}
    {t : List Call} {e : WebhookError ε}
    (h : andThen a b = (t, .error e))
    (ha : ∀ t' e', a = (t', .error e') → ∃ x, e' = .handlerError x)
    (hb : ∀ t' e', b () = (t', .error e') → ∃ x, e' = .handlerError x) :
    ∃ x, e = .handlerError x := by
  obtain ⟨t1, r1⟩ := a
  cases r1 with
  | ok u =>
    unfold andThen at h
    rcases hbe : b () with ⟨t2, r2⟩
    rw [hbe] at h
    have h2 := congrArg Prod.snd h
    cases r2 with
    | ok _ => simp at h2
    | error e2 =>
      simp only [Prod.snd] at h2
      injection h2 with h3
      subst h3
      exact hb t2 e2 hbe
  | error e1 =>
    unfold andThen at h
    have h2 := congrArg Prod.snd h
    simp only [Prod.snd] at h2
    injection h2 with h3
    subst h3
    exact ha t1 e1 rfl

/-- Every error escaping `dispatch` is a propagated handler error. -/
theorem dispatch_error_handler {ε : Type} {ev n : Json} {h : Handlers ε}
    {t : List Call} {e : WebhookError ε}
    (hd : dispatch ev n h = (t, .error e)) : ∃ x, e = .handlerError x := by
  unfold dispatch at hd
  by_cases h1 : eventTypeOf ev = "checkout.completed"
  · rw [if_pos h1] at hd
    exact invoke_error hd
  rw [if_neg h1] at hd
  by_cases h2 : eventTypeOf ev = "refund.created"
  · rw [if_pos h2] at hd
    exact invoke_error hd
  rw [if_neg h2] at hd
  by_cases h3 : eventTypeOf ev = "dispute.created"
  · rw [if_pos h3] at hd
    exact invoke_error hd
  rw [if_neg h3] at hd
  by_cases h4 : eventTypeOf ev = "subscription.active"
  · rw [if_pos h4] at hd
    exact andThen_error hd (fun _ _ h' => invoke_error h')
      (fun _ _ h' => invoke_error h')
  rw [if_neg h4] at hd
  by_cases h5 : eventTypeOf ev = "subscription.trialing"
  · rw [if_pos h5] at hd
    exact andThen_error hd (fun _ _ h' => invoke_error h')
      (fun _ _ h' => invoke_error h')
  rw [if_neg h5] at hd
  by_cases h6 : eventTypeOf ev = "subscription.paid"
  · rw [if_pos h6] at hd
    exact andThen_error hd (fun _ _ h' => invoke_error h')
      (fun _ _ h' => invoke_error h')
  rw [if_neg h6] at hd
  by_cases h7 : eventTypeOf ev = "subscription.paused"
  · rw [if_pos h7] at hd
    exact andThen_error hd (fun _ _ h' => invoke_error h')
      (fun _ _ h' => invoke_error h')
  rw [if_neg h7] at hd
  by_cases h8 : eventTypeOf ev = "subscription.expired"
  · rw [if_pos h8] at hd
    exact andThen_error hd (fun _ _ h' => invoke_error h')
      (fun _ _ h' => invoke_error h')
  rw [if_neg h8] at hd
  by_cases h9 : eventTypeOf ev = "subscription.canceled"
  · rw [if_pos h9] at hd
    exact invoke_error hd
  rw [if_neg h9] at hd
  by_cases h10 : eventTypeOf ev = "subscription.unpaid"
  · rw [if_pos h10] at hd
    exact invoke_error hd
  rw [if_neg h10] at hd
  by_cases h11 : eventTypeOf ev = "subscription.update"
  · rw [if_pos h11] at hd
    exact invoke_error hd
  rw [if_neg h11] at hd
  by_cases h12 : eventTypeOf ev = "subscription.past_due"
  · rw [if_pos h12] at hd
    exact invoke_error hd
  rw [if_neg h12] at hd
  by_cases h13 : eventTypeOf ev = "subscription.scheduled_cancel"
  · rw [if_pos h13] at hd
    exact invoke_error hd
  rw [if_neg h13] at hd
  cases hd

/-- C2.  The entry-point failures are checked in the fixed order:
a falsy secret raises the configuration error regardless of the
signature and payload; with a secret set, a failing signature raises
"Invalid webhook signature" regardless of the payload's parsability;
with a passing signature, a parse failure propagates; and whenever
`handleEvents` fails with any non-handler error, the invocation trace
is empty (no handler ran on an invalid envelope). -/
theorem handleEvents_entry_order {ε : Type} :
    (∀ (p sig : String) (h : Handlers ε),
      handleEvents none p sig h =
          ([], .error (.errorMsg secretNotConfiguredMsg)) ∧
      handleEvents (some "") p sig h =
          ([], .error (.errorMsg secretNotConfiguredMsg))) ∧
    (∀ (sec p sig : String) (h : Handlers ε), sec ≠ "" →
      verifySignature p sig sec = some false →
      handleEvents (some sec) p sig h =
        ([], .error (.errorMsg "Invalid webhook signature"))) ∧
    (∀ (sec p sig : String) (h : Handlers ε) (e : WebhookError ε), sec ≠ "" →
      verifySignature p sig sec = some true →
      parseWebhookEvent ε p = .error e →
      handleEvents (some sec) p sig h = ([], .error e)) ∧
    (∀ (secret : Option String) (p sig : String) (h : Handlers ε)
        (t : List Call) (e : WebhookError ε),
      handleEvents secret p sig h = (t, .error e) →
      (∀ x : ε, e ≠ .handlerError x) → t = []) := by
  refine ⟨?_, ?_, ?_, ?_⟩
  · intro p sig h
    constructor <;> rfl
  · intro sec p sig h hsec hv
    unfold handleEvents
    rw [if_neg (by simpa using hsec)]
    simp only [Option.getD_some]
    rw [hv]
  · intro sec p sig h e hsec hv hp
    unfold handleEvents
    rw [if_neg (by simpa using hsec)]
    simp only [Option.getD_some]
    rw [hv, hp]
  · intro secret p sig h t e hrun hne
    unfold handleEvents at hrun
    by_cases hsec : secret.getD "" = ""
    · rw [if_pos hsec] at hrun
      exact (Prod.ext_iff.mp hrun.symm).1
    · rw [if_neg hsec] at hrun
      cases hv : verifySignature p sig (secret.getD "") with
      | none =>
        rw [hv] at hrun
        exact (Prod.ext_iff.mp hrun.symm).1
      | some b =>
        rw [hv] at hrun
        cases b with
        | false => exact (Prod.ext_iff.mp hrun.symm).1
        | true =>
          cases hp : parseWebhookEvent ε p with
          | error e' =>
            rw [hp] at hrun
            exact (Prod.ext_iff.mp hrun.symm).1
          | ok event =>
            rw [hp] at hrun
            obtain ⟨x, rfl⟩ := dispatch_error_handler hrun
            exact absurd rfl (hne x)

set_option maxRecDepth 100000 in
/-- Witness for C2 at concrete inputs: an unset and an empty secret,
a wrong signature, and an unparsable payload each fail with an empty
trace. -/
theorem handleEvents_entry_order_witness :
    (handleEvents (ε := Unit) none "p" "sig" {} =
        ([], .error (.errorMsg secretNotConfiguredMsg))) ∧
    (handleEvents (ε := Unit) (some "sec") "p" "" {} =
        ([], .error (.errorMsg "Invalid webhook signature"))) ∧
    (handleEvents (ε := Unit) (some "sec") "not json"
        (generateSignature "not json" "sec") {} =
        ([], .error .jsonSyntaxError)) ∧
    (handleEvents (ε := Unit) (some "secret2") "\x7b\x7d"
        (generateSignature "\x7b\x7d" "secret2") {}).fst = [] := by
  refine ⟨(handleEvents_entry_order.1 "p" "sig" {}).1, ?_, ?_, ?_⟩
  · exact handleEvents_entry_order.2.1 "sec" "p" "" {} (by decide) (by decide)
  · refine handleEvents_entry_order.2.2.1 "sec" "not json"
      (generateSignature "not json" "sec") {} .jsonSyntaxError
      (by decide) ?_ (by rfl)
    rw [verifySignature_eq]
    simp
  · have hrun : handleEvents (ε := Unit) (some "secret2") "\x7b\x7d"
        (generateSignature "\x7b\x7d" "secret2") {} =
        ([], .error (.errorMsg "Invalid webhook event structure")) := by
      refine handleEvents_entry_order.2.2.1 "secret2" "\x7b\x7d" _ {} _
        (by decide) ?_ (by rfl)
      rw [verifySignature_eq]
      simp
    refine handleEvents_entry_order.2.2.2 (some "secret2") "\x7b\x7d" _ {} _
      (.errorMsg "Invalid webhook event structure") (by rw [hrun]) ?_
    intro x hx
    cases hx

/-! ## The spec's dispatch table (refinement side for C3) -/

/-- The dispatch table of spec §4.4, written from the spec's words: for
each recognized event type, the optional access-control pre-step
(callback name and reason) and the specific-event callback name;
`none` for any other event type. -/
def specDispatchRow (et : String) : Option (Option (String × String) × String) :=
  if et = "checkout.completed" then some (none, "onCheckoutCompleted")
  else if et = "refund.created" then some (none, "onRefundCreated")
  else if et = "dispute.created" then some (none, "onDisputeCreated")
  else if et = "subscription.active" then
    some (some ("onGrantAccess", "subscription_active"), "onSubscriptionActive")
  else if et = "subscription.trialing" then
    some (some ("onGrantAccess", "subscription_trialing"), "onSubscriptionTrialing")
  else if et = "subscription.paid" then
    some (some ("onGrantAccess", "subscription_paid"), "onSubscriptionPaid")
  else if et = "subscription.paused" then
    some (some ("onRevokeAccess", "subscription_paused"), "onSubscriptionPaused")
  else if et = "subscription.expired" then
    some (some ("onRevokeAccess", "subscription_expired"), "onSubscriptionExpired")
  else if et = "subscription.canceled" then some (none, "onSubscriptionCanceled")
  else if et = "subscription.unpaid" then some (none, "onSubscriptionUnpaid")
  else if et = "subscription.update" then some (none, "onSubscriptionUpdate")
  else if et = "subscription.past_due" then some (none, "onSubscriptionPastDue")
  else if et = "subscription.scheduled_cancel" then
    some (none, "onSubscriptionScheduledCancel")
  else none

/-- The invocation list the spec's table prescribes: the pre-step first
when its callback is registered, then the specific handler when
registered; nothing for unknown event types. -/
def specExpectedCalls {ε : Type} (h : Handlers ε) (ev normalized : Json) :
    List Call :=
  match specDispatchRow (eventTypeOf ev) with
  | none => []
  | some (pre, name) =>
    (match pre with
     | some (preName, reason) =>
       if (h.get preName).isSome then [⟨preName, accessCtx reason normalized⟩]
       else []
     | none => []) ++
    (if (h.get name).isSome then [⟨name, specificCtx ev normalized⟩] else [])

/-- A registered handler that always returns successfully (an absent
handler counts as such). -/
def okHandler {ε : Type} : Option (Json → Except ε Unit) → Prop
  | none => True
  | some f => ∀ arg, f arg = .ok ()

/-- Every registered handler returns successfully. -/
def Handlers.AllOk {ε : Type} (h : Handlers ε) : Prop :=
  okHandler h.onCheckoutCompleted ∧ okHandler h.onRefundCreated ∧
  okHandler h.onDisputeCreated ∧ okHandler h.onSubscriptionActive ∧
  okHandler h.onSubscriptionTrialing ∧ okHandler h.onSubscriptionPaid ∧
  okHandler h.onSubscriptionPaused ∧ okHandler h.onSubscriptionExpired ∧
  okHandler h.onSubscriptionCanceled ∧ okHandler h.onSubscriptionUnpaid ∧
  okHandler h.onSubscriptionUpdate ∧ okHandler h.onSubscriptionPastDue ∧
  okHandler h.onSubscriptionScheduledCancel ∧ okHandler h.onGrantAccess ∧
  okHandler h.onRevokeAccess

theorem invoke_ok {ε : Type} {opt : Option (Json → Except ε Unit)}
    (hko : okHandler opt) (name : String) (arg : Json) :
    invoke name opt arg =
      ((if opt.isSome then [⟨name, arg⟩] else []), .ok ()) := by
  cases opt with
  | none => rfl
  | some f =>
    have hf := hko arg
    simp [invoke, hf]

theorem andThen_ok_left {ε : Type} {t : List Call}
    (b : Unit → List Call × Except (WebhookError ε) Unit) :
    andThen (t, .ok ()) b = (t ++ (b ()).1, (b ()).2) := rfl


/-- C3.  On a verified, well-formed envelope whose handlers all
succeed, `handleEvents` performs exactly the invocations of the spec's
dispatch table, in table order: the access-control pre-step (when
registered) completes before the specific-event handler starts, an
unregistered handler at either step is skipped without affecting the
other, and an event type outside the table invokes nothing and
completes successfully. -/
theorem handleEvents_dispatch_table {ε : Type} :
    ∀ (sec p sig : String) (h : Handlers ε) (event : Json),
    sec ≠ "" →
    verifySignature p sig sec = some true →
    parseWebhookEvent ε p = .ok event →
    Handlers.AllOk h →
    handleEvents (some sec) p sig h =
      (specExpectedCalls h event
         (normalizeWebhookData (eventField event "object")), .ok ()) := by
  intro sec p sig h event hsec hv hp hok
  obtain ⟨k1, k2, k3, k4, k5, k6, k7, k8, k9, k10, k11, k12, k13, k14, k15⟩ := hok
  unfold handleEvents
  rw [if_neg (by simpa using hsec)]
  simp only [Option.getD_some]
  rw [hv, hp]
  show dispatch event (normalizeWebhookData (eventField event "object")) h = _
  generalize normalizeWebhookData (eventField event "object") = N
  unfold dispatch specExpectedCalls specDispatchRow
  by_cases h1 : eventTypeOf event = "checkout.completed"
  · rw [h1]
    simp [invoke_ok k1, Handlers.get]
  rw [if_neg h1]
  by_cases h2 : eventTypeOf event = "refund.created"
  · rw [h2]
    simp [invoke_ok k2, Handlers.get]
  rw [if_neg h2]
  by_cases h3 : eventTypeOf event = "dispute.created"
  · rw [h3]
    simp [invoke_ok k3, Handlers.get]
  rw [if_neg h3]
  by_cases h4 : eventTypeOf event = "subscription.active"
  · rw [h4]
    simp [invoke_ok k14, invoke_ok k4, andThen_ok_left, Handlers.get]
  rw [if_neg h4]
  by_cases h5 : eventTypeOf event = "subscription.trialing"
  · rw [h5]
    simp [invoke_ok k14, invoke_ok k5, andThen_ok_left, Handlers.get]
  rw [if_neg h5]
  by_cases h6 : eventTypeOf event = "subscription.paid"
  · rw [h6]
    simp [invoke_ok k14, invoke_ok k6, andThen_ok_left, Handlers.get]
  rw [if_neg h6]
  by_cases h7 : eventTypeOf event = "subscription.paused"
  · rw [h7]
    simp [invoke_ok k15, invoke_ok k7, andThen_ok_left, Handlers.get]
  rw [if_neg h7]
  by_cases h8 : eventTypeOf event = "subscription.expired"
  · rw [h8]
    simp [invoke_ok k15, invoke_ok k8, andThen_ok_left, Handlers.get]
  rw [if_neg h8]
  by_cases h9 : eventTypeOf event = "subscription.canceled"
  · rw [h9]
    simp [invoke_ok k9, Handlers.get]
  rw [if_neg h9]
  by_cases h10 : eventTypeOf event = "subscription.unpaid"
  · rw [h10]
    simp [invoke_ok k10, Handlers.get]
  rw [if_neg h10]
  by_cases h11 : eventTypeOf event = "subscription.update"
  · rw [h11]
    simp [invoke_ok k11, Handlers.get]
  rw [if_neg h11]
  by_cases h12 : eventTypeOf event = "subscription.past_due"
  · rw [h12]
    simp [invoke_ok k12, Handlers.get]
  rw [if_neg h12]
  by_cases h13 : eventTypeOf event = "subscription.scheduled_cancel"
  · rw [h13]
    simp [invoke_ok k13, Handlers.get]
  rw [if_neg h13]
  simp [h1, h2, h3, h4, h5, h6, h7, h8, h9, h10, h11, h12, h13]

/-- Concrete payload used by the C3 witness. -/
def c3Payload : String :=
  "\x7b\"id\":\"evt_1\",\"eventType\":\"subscription.active\",\"created_at\":1700000000,\"object\":\x7b\"object\":\"subscription\",\"request_id\":null\x7d\x7d"

/-- The envelope `c3Payload` parses to. -/
def c3Event : Json :=
  .obj [("id", .str "evt_1"), ("eventType", .str "subscription.active"),
        ("created_at", .num 1700000000),
        ("object", .obj [("object", .str "subscription"), ("request_id", .null)])]

/-- Handlers used by the C3 witness: a grant-access callback and a
specific handler, both succeeding. -/
def c3Handlers : Handlers Unit where
  onGrantAccess := some fun _ => .ok ()
  onSubscriptionActive := some fun _ => .ok ()

set_option maxRecDepth 100000 in
/-- Witness for C3: on a concrete verified `subscription.active`
payload, the trace is the grant-access call followed by the specific
handler call. -/
theorem handleEvents_dispatch_table_witness :
    handleEvents (some "sec") c3Payload (generateSignature c3Payload "sec")
        c3Handlers =
      (specExpectedCalls c3Handlers c3Event
         (normalizeWebhookData (eventField c3Event "object")), .ok ()) ∧
    (specExpectedCalls c3Handlers c3Event
       (normalizeWebhookData (eventField c3Event "object"))).map Call.name =
      ["onGrantAccess", "onSubscriptionActive"] := by
  constructor
  · refine handleEvents_dispatch_table "sec" c3Payload _ c3Handlers c3Event
      (by decide) ?_ (by rfl) ?_
    · rw [verifySignature_eq]
      simp
    · exact ⟨trivial, trivial, trivial, fun _ => rfl, trivial, trivial,
        trivial, trivial, trivial, trivial, trivial, trivial, trivial,
        fun _ => rfl, trivial⟩
  · rfl


/-- C4.  When the access-control pre-step of a grant/revoke row throws,
dispatch stops: the trace holds exactly that one invocation (the
specific-event handler that follows is never invoked, whatever is
registered for it), and the handler's error reaches the caller
unchanged inside `handlerError`.  The `subscription.active` /
`onGrantAccess` / `onSubscriptionActive` scenario of the claim is the
first row. -/
theorem handler_error_stops_dispatch {ε : Type} :
    ∀ (sec p sig : String) (h : Handlers ε) (event : Json)
      (f : Json → Except ε Unit) (e : ε) (et preName reason : String),
    ((et = "subscription.active" ∧ preName = "onGrantAccess" ∧ reason = "subscription_active") ∨
    (et = "subscription.trialing" ∧ preName = "onGrantAccess" ∧ reason = "subscription_trialing") ∨
    (et = "subscription.paid" ∧ preName = "onGrantAccess" ∧ reason = "subscription_paid") ∨
    (et = "subscription.paused" ∧ preName = "onRevokeAccess" ∧ reason = "subscription_paused") ∨
    (et = "subscription.expired" ∧ preName = "onRevokeAccess" ∧ reason = "subscription_expired")) →
    sec ≠ "" →
    verifySignature p sig sec = some true →
    parseWebhookEvent ε p = .ok event →
    eventTypeOf event = et →
    h.get preName = some f →
    f (accessCtx reason (normalizeWebhookData (eventField event "object"))) =
      .error e →
    handleEvents (some sec) p sig h =
      ([⟨preName,
         accessCtx reason (normalizeWebhookData (eventField event "object"))⟩],
       .error (.handlerError e)) := by
  intro sec p sig h event f e et preName reason hrow hsec hv hp het hget hf
  unfold handleEvents
  rw [if_neg (by simpa using hsec)]
  simp only [Option.getD_some]
  rw [hv, hp]
  show dispatch event (normalizeWebhookData (eventField event "object")) h = _
  generalize hN : normalizeWebhookData (eventField event "object") = N
  rw [hN] at hf
  unfold dispatch
  rw [het]
  rcases hrow with ⟨rfl, rfl, rfl⟩ | ⟨rfl, rfl, rfl⟩ | ⟨rfl, rfl, rfl⟩ |
    ⟨rfl, rfl, rfl⟩ | ⟨rfl, rfl, rfl⟩
  · have hget2 : h.onGrantAccess = some f := hget
    simp [invoke, andThen, hget2, hf]
  · have hget2 : h.onGrantAccess = some f := hget
    simp [invoke, andThen, hget2, hf]
  · have hget2 : h.onGrantAccess = some f := hget
    simp [invoke, andThen, hget2, hf]
  · have hget2 : h.onRevokeAccess = some f := hget
    simp [invoke, andThen, hget2, hf]
  · have hget2 : h.onRevokeAccess = some f := hget
    simp [invoke, andThen, hget2, hf]

/-- Concrete payload used by the C4 witness. -/
def c4Payload : String :=
  "\x7b\"id\":\"evt_2\",\"eventType\":\"subscription.active\",\"created_at\":1700000001,\"object\":\x7b\"object\":\"subscription\",\"status\":\"active\"\x7d\x7d"

/-- The envelope `c4Payload` parses to. -/
def c4Event : Json :=
  .obj [("id", .str "evt_2"), ("eventType", .str "subscription.active"),
        ("created_at", .num 1700000001),
        ("object", .obj [("object", .str "subscription"),
                         ("status", .str "active")])]

/-- Handlers used by the C4 witness: the grant-access callback throws,
and a specific handler is registered (it must not run). -/
def c4Handlers : Handlers String where
  onGrantAccess := some fun _ => .error "boom"
  onSubscriptionActive := some fun _ => .ok ()

set_option maxRecDepth 100000 in
/-- Witness for C4: the thrown grant-access error aborts dispatch with
a one-call trace and reaches the caller verbatim. -/
theorem handler_error_stops_dispatch_witness :
    handleEvents (some "sec") c4Payload (generateSignature c4Payload "sec")
        c4Handlers =
      ([⟨"onGrantAccess",
         accessCtx "subscription_active"
           (normalizeWebhookData (eventField c4Event "object"))⟩],
       .error (.handlerError "boom")) := by
  refine handler_error_stops_dispatch "sec" c4Payload _ c4Handlers c4Event
    (fun _ => .error "boom") "boom" "subscription.active" "onGrantAccess"
    "subscription_active" (Or.inl ⟨rfl, rfl, rfl⟩) (by decide) ?_ (by rfl)
    (by rfl) (by rfl) (by rfl)
  rw [verifySignature_eq]
  simp


/-! ## Guard characterizations -/

theorem isWebhookEntity_true_iff (o : Json) :
    isWebhookEntity o = true ↔
      ∃ kvs s, o = .obj kvs ∧ assoc kvs "object" = some (.str s) ∧
        s ∈ webhookEntityTypes := by
  cases o with
  | obj kvs =>
    simp only [isWebhookEntity]
    cases ha : assoc kvs "object" with
    | none => simp [ha]
    | some j => cases j <;> simp [ha, List.elem_eq_mem]
  | null => simp [isWebhookEntity]
  | bool b => simp [isWebhookEntity]
  | num n => simp [isWebhookEntity]
  | str s => simp [isWebhookEntity]
  | arr a => simp [isWebhookEntity]

theorem isWebhookEvent_true_iff (v : Json) :
    isWebhookEvent v = true ↔
      ∃ fields, v = .obj fields ∧
        (∃ s, assoc fields "eventType" = some (.str s)) ∧
        (∃ s, assoc fields "id" = some (.str s)) ∧
        (∃ n : Int, assoc fields "created_at" = some (.num n)) ∧
        (∃ o, assoc fields "object" = some o ∧
          isWebhookEntity o = true) := by
  cases v with
  | obj fields =>
    simp only [isWebhookEvent, Bool.and_eq_true]
    constructor
    · rintro ⟨⟨⟨h1, h2⟩, h3⟩, h4⟩
      refine ⟨fields, rfl, ?_, ?_, ?_, ?_⟩
      · cases he : assoc fields "eventType" with
        | none => rw [he] at h1; cases h1
        | some j =>
          cases j with
          | null => rw [he] at h1; cases h1
          | bool b2 => rw [he] at h1; cases h1
          | num m2 => rw [he] at h1; cases h1
          | str s2 => exact ⟨s2, rfl⟩
          | arr a2 => rw [he] at h1; cases h1
          | obj o2 => rw [he] at h1; cases h1
      · cases he : assoc fields "id" with
        | none => rw [he] at h2; cases h2
        | some j =>
          cases j with
          | null => rw [he] at h2; cases h2
          | bool b2 => rw [he] at h2; cases h2
          | num m2 => rw [he] at h2; cases h2
          | str s2 => exact ⟨s2, rfl⟩
          | arr a2 => rw [he] at h2; cases h2
          | obj o2 => rw [he] at h2; cases h2
      · cases he : assoc fields "created_at" with
        | none => rw [he] at h3; cases h3
        | some j =>
          cases j with
          | null => rw [he] at h3; cases h3
          | bool b2 => rw [he] at h3; cases h3
          | num m2 => exact ⟨m2, rfl⟩
          | str s2 => rw [he] at h3; cases h3
          | arr a2 => rw [he] at h3; cases h3
          | obj o2 => rw [he] at h3; cases h3
      · cases he : assoc fields "object" with
        | none => rw [he] at h4; cases h4
        | some o =>
          rw [he] at h4
          exact ⟨o, rfl, h4⟩
    · rintro ⟨fields2, hf, ⟨s1, h1⟩, ⟨s2, h2⟩, ⟨n, h3⟩, ⟨o, h4, h5⟩⟩
      cases hf
      simp [h1, h2, h3, h4, h5]
  | null => simp [isWebhookEvent]
  | bool b => simp [isWebhookEvent]
  | num n => simp [isWebhookEvent]
  | str s => simp [isWebhookEvent]
  | arr a => simp [isWebhookEvent]

set_option maxRecDepth 100000 in
/-- Counterexample to C5 as stated: a payload carrying the wire key
`created_at` but no `createdAt` key decodes to an object that is
missing `createdAt` (a number), yet `parse` accepts it — the guard
checks the snake_case wire key, not `createdAt`. -/
theorem parseWebhookEvent_missing_createdAt_accepted :
    parseWebhookEvent Unit
        "\x7b\"id\":\"a\",\"eventType\":\"b\",\"created_at\":1,\"object\":\x7b\"object\":\"checkout\"\x7d\x7d"
      = .ok (.obj [("id", .str "a"), ("eventType", .str "b"),
                   ("created_at", .num 1),
                   ("object", .obj [("object", .str "checkout")])]) ∧
    lookupField
        (.obj [("id", .str "a"), ("eventType", .str "b"),
               ("created_at", .num 1),
               ("object", .obj [("object", .str "checkout")])]) "createdAt"
      = none :=
  ⟨rfl, rfl⟩

/-- C5 (amended: the creation-time requirement is on the wire key
`created_at`, not `createdAt`).  `parse` rejects, all-or-nothing (an
`Except.error` carries no partial event): empty text and any text
`JSON.parse` refuses (with the propagated `SyntaxError`); and any
decoded value without a string `id`, without a string `eventType`,
without a numeric `created_at`, or whose `object` member is absent or
fails the entity guard (with "Invalid webhook event structure"); the
entity guard demands a mapping whose `object` discriminator is a
string in the closed set. -/
theorem parseWebhookEvent_rejects {ε : Type} :
    (parseWebhookEvent ε "" = .error .jsonSyntaxError) ∧
    (∀ p, jsonParse p = none → parseWebhookEvent ε p = .error .jsonSyntaxError) ∧
    (∀ p v, jsonParse p = some v →
      (∀ s, lookupField v "id" ≠ some (.str s)) →
      parseWebhookEvent ε p = .error (.errorMsg "Invalid webhook event structure")) ∧
    (∀ p v, jsonParse p = some v →
      (∀ s, lookupField v "eventType" ≠ some (.str s)) →
      parseWebhookEvent ε p = .error (.errorMsg "Invalid webhook event structure")) ∧
    (∀ p v, jsonParse p = some v →
      (∀ n : Int, lookupField v "created_at" ≠ some (.num n)) →
      parseWebhookEvent ε p = .error (.errorMsg "Invalid webhook event structure")) ∧
    (∀ p v, jsonParse p = some v →
      (∀ o, lookupField v "object" = some o → isWebhookEntity o = false) →
      parseWebhookEvent ε p = .error (.errorMsg "Invalid webhook event structure")) ∧
    (∀ o, isWebhookEntity o = true ↔
      ∃ kvs s, o = .obj kvs ∧ assoc kvs "object" = some (.str s) ∧
        s ∈ webhookEntityTypes) := by
  have reject : ∀ p v, jsonParse p = some v → isWebhookEvent v = false →
      parseWebhookEvent ε p = .error (.errorMsg "Invalid webhook event structure") := by
    intro p v hj hw
    unfold parseWebhookEvent
    rw [hj]
    simp [hw]
  refine ⟨rfl, ?_, ?_, ?_, ?_, ?_, isWebhookEntity_true_iff⟩
  · intro p hj
    unfold parseWebhookEvent
    rw [hj]
  · intro p v hj hid
    refine reject p v hj ?_
    cases hwb : isWebhookEvent v with
    | false => rfl
    | true =>
      exfalso
      obtain ⟨fields, rfl, _, ⟨s, hs⟩, _, _⟩ := (isWebhookEvent_true_iff v).mp hwb
      exact hid s (by simpa [lookupField] using hs)
  · intro p v hj het
    refine reject p v hj ?_
    cases hwb : isWebhookEvent v with
    | false => rfl
    | true =>
      exfalso
      obtain ⟨fields, rfl, ⟨s, hs⟩, _, _, _⟩ := (isWebhookEvent_true_iff v).mp hwb
      exact het s (by simpa [lookupField] using hs)
  · intro p v hj hca
    refine reject p v hj ?_
    cases hwb : isWebhookEvent v with
    | false => rfl
    | true =>
      exfalso
      obtain ⟨fields, rfl, _, _, ⟨n, hn⟩, _⟩ := (isWebhookEvent_true_iff v).mp hwb
      exact hca n (by simpa [lookupField] using hn)
  · intro p v hj hobj
    refine reject p v hj ?_
    cases hwb : isWebhookEvent v with
    | false => rfl
    | true =>
      exfalso
      obtain ⟨fields, rfl, _, _, _, ⟨o, ho, hent⟩⟩ := (isWebhookEvent_true_iff v).mp hwb
      have := hobj o (by simpa [lookupField] using ho)
      simp [this] at hent

set_option maxRecDepth 100000 in
/-- Witness for the amended C5 at concrete inputs: unparsable text, a
missing `id`, a payload using `createdAt` in place of `created_at`,
and a non-entity `object` member are each rejected. -/
theorem parseWebhookEvent_rejects_witness :
    (parseWebhookEvent Unit "\x7b" = .error .jsonSyntaxError) ∧
    (parseWebhookEvent Unit
        "\x7b\"eventType\":\"b\",\"created_at\":1,\"object\":\x7b\"object\":\"checkout\"\x7d\x7d"
      = .error (.errorMsg "Invalid webhook event structure")) ∧
    (parseWebhookEvent Unit
        "\x7b\"id\":\"a\",\"eventType\":\"b\",\"createdAt\":1,\"object\":\x7b\"object\":\"checkout\"\x7d\x7d"
      = .error (.errorMsg "Invalid webhook event structure")) ∧
    (parseWebhookEvent Unit
        "\x7b\"id\":\"a\",\"eventType\":\"b\",\"created_at\":1,\"object\":42\x7d"
      = .error (.errorMsg "Invalid webhook event structure")) := by
  refine ⟨parseWebhookEvent_rejects.2.1 "\x7b" (by rfl), ?_, ?_, ?_⟩
  · refine parseWebhookEvent_rejects.2.2.1
      "\x7b\"eventType\":\"b\",\"created_at\":1,\"object\":\x7b\"object\":\"checkout\"\x7d\x7d"
      (.obj [("eventType", .str "b"), ("created_at", .num 1),
             ("object", .obj [("object", .str "checkout")])]) (by rfl) ?_
    intro s hcon
    rw [show lookupField
        (.obj [("eventType", .str "b"), ("created_at", .num 1),
               ("object", .obj [("object", .str "checkout")])]) "id" = none
      from rfl] at hcon
    cases hcon
  · refine parseWebhookEvent_rejects.2.2.2.2.1
      "\x7b\"id\":\"a\",\"eventType\":\"b\",\"createdAt\":1,\"object\":\x7b\"object\":\"checkout\"\x7d\x7d"
      (.obj [("id", .str "a"), ("eventType", .str "b"), ("createdAt", .num 1),
             ("object", .obj [("object", .str "checkout")])]) (by rfl) ?_
    intro n hcon
    rw [show lookupField
        (.obj [("id", .str "a"), ("eventType", .str "b"), ("createdAt", .num 1),
               ("object", .obj [("object", .str "checkout")])]) "created_at"
        = none from rfl] at hcon
    cases hcon
  · refine parseWebhookEvent_rejects.2.2.2.2.2.1
      "\x7b\"id\":\"a\",\"eventType\":\"b\",\"created_at\":1,\"object\":42\x7d"
      (.obj [("id", .str "a"), ("eventType", .str "b"), ("created_at", .num 1),
             ("object", .num 42)]) (by rfl) ?_
    intro o ho
    rw [show lookupField
        (.obj [("id", .str "a"), ("eventType", .str "b"), ("created_at", .num 1),
               ("object", .num 42)]) "object" = some (.num 42) from rfl] at ho
    cases ho
    rfl

set_option maxRecDepth 100000 in
/-- Counterexample to C6 as stated: a correctly signed payload whose
text `JSON.parse` cannot decode makes `handleEvents` propagate the
`SyntaxError` thrown by `JSON.parse`, which is not the
"Invalid webhook event structure" error the claim promises. -/
theorem handleEvents_syntax_error_not_structure_error :
    handleEvents (ε := Unit) (some "c6secret") "oops"
        (generateSignature "oops" "c6secret") {} =
      ([], .error .jsonSyntaxError) ∧
    (WebhookError.jsonSyntaxError : WebhookError Unit) ≠
      .errorMsg "Invalid webhook event structure" := by
  constructor
  · unfold handleEvents
    rw [if_neg (by decide)]
    simp only [Option.getD_some]
    rw [verifySignature_eq]
    simp only [decide_eq_true_eq, decide_True, eq_self_iff_true]
    rfl
  · intro hcon
    cases hcon

/-- C6 (amended: only payloads that decode as structured data but fail
envelope validation raise "Invalid webhook event structure"; text that
`JSON.parse` cannot decode at all instead propagates the JSON
`SyntaxError`).  Every signature-verification failure raises "Invalid
webhook signature". -/
theorem handleEvents_error_messages {ε : Type} :
    (∀ (sec p sig : String) (h : Handlers ε) (v : Json), sec ≠ "" →
      verifySignature p sig sec = some true →
      jsonParse p = some v → isWebhookEvent v = false →
      handleEvents (some sec) p sig h =
        ([], .error (.errorMsg "Invalid webhook event structure"))) ∧
    (∀ (sec p sig : String) (h : Handlers ε), sec ≠ "" →
      verifySignature p sig sec = some false →
      handleEvents (some sec) p sig h =
        ([], .error (.errorMsg "Invalid webhook signature"))) ∧
    (∀ (sec p sig : String) (h : Handlers ε), sec ≠ "" →
      verifySignature p sig sec = some true →
      jsonParse p = none →
      handleEvents (some sec) p sig h = ([], .error .jsonSyntaxError)) := by
  refine ⟨?_, ?_, ?_⟩
  · intro sec p sig h v hsec hv hj hw
    unfold handleEvents
    rw [if_neg (by simpa using hsec)]
    simp only [Option.getD_some]
    rw [hv]
    unfold parseWebhookEvent
    rw [hj]
    simp [hw]
  · intro sec p sig h hsec hv
    unfold handleEvents
    rw [if_neg (by simpa using hsec)]
    simp only [Option.getD_some]
    rw [hv]
  · intro sec p sig h hsec hv hj
    unfold handleEvents
    rw [if_neg (by simpa using hsec)]
    simp only [Option.getD_some]
    rw [hv]
    unfold parseWebhookEvent
    rw [hj]

set_option maxRecDepth 100000 in
/-- Witness for the amended C6 at concrete inputs: a decodable but
invalid envelope, a wrong signature, and undecodable text produce the
three error identities. -/
theorem handleEvents_error_messages_witness :
    (handleEvents (ε := Unit) (some "s1") "[]"
        (generateSignature "[]" "s1") {} =
      ([], .error (.errorMsg "Invalid webhook event structure"))) ∧
    (handleEvents (ε := Unit) (some "s1") "[]" "nope" {} =
      ([], .error (.errorMsg "Invalid webhook signature"))) ∧
    (handleEvents (ε := Unit) (some "s1") "zzz"
        (generateSignature "zzz" "s1") {} =
      ([], .error .jsonSyntaxError)) := by
  refine ⟨?_, ?_, ?_⟩
  · refine handleEvents_error_messages.1 "s1" "[]" _ {} (.arr [])
      (by decide) ?_ (by rfl) (by rfl)
    rw [verifySignature_eq]
    simp
  · exact handleEvents_error_messages.2.1 "s1" "[]" "nope" {}
      (by decide) (by decide)
  · refine handleEvents_error_messages.2.2 "s1" "zzz" _ {}
      (by decide) ?_ (by rfl)
    rw [verifySignature_eq]
    simp

/-! ## Normalizer algebra (C7, C8) -/

theorem toNat_ofNat_lt {n : Nat} (h : n < 55296) : (Char.ofNat n).toNat = n := by
  unfold Char.ofNat
  rw [dif_pos (Or.inl h)]
  rfl

theorem isLowerDigit_bounds {c : Char} (h : isLowerDigit c = true) :
    (97 ≤ c.toNat ∧ c.toNat ≤ 122) ∨ (48 ≤ c.toNat ∧ c.toNat ≤ 57) := by
  unfold isLowerDigit at h
  simp only [Bool.or_eq_true, Bool.and_eq_true, decide_eq_true_eq] at h
  exact h

theorem ne_underscore_of_lowerDigit {c : Char} (h : isLowerDigit c = true) :
    c ≠ '_' := by
  intro heq
  subst heq
  exact absurd h (by decide)

theorem toUpper_ne_underscore {c : Char} (h : isLowerDigit c = true) :
    Char.toUpper c ≠ '_' := by
  rcases isLowerDigit_bounds h with ⟨h1, h2⟩ | ⟨h1, h2⟩
  · have hup : Char.toUpper c = Char.ofNat (c.toNat - 32) := by
      show (if c.toNat ≥ 97 ∧ c.toNat ≤ 122 then Char.ofNat (c.toNat - 32)
            else c) = _
      rw [if_pos ⟨h1, h2⟩]
    rw [hup]
    intro heq
    have ht := congrArg Char.toNat heq
    rw [toNat_ofNat_lt (by omega)] at ht
    have h95 : ('_').toNat = 95 := rfl
    rw [h95] at ht
    omega
  · have hup : Char.toUpper c = c := by
      show (if c.toNat ≥ 97 ∧ c.toNat ≤ 122 then Char.ofNat (c.toNat - 32)
            else c) = c
      rw [if_neg (by omega)]
    rw [hup]
    intro heq
    have ht := congrArg Char.toNat heq
    have h95 : ('_').toNat = 95 := rfl
    rw [h95] at ht
    omega

theorem mem_capitalizeWord_ne_underscore {c : Char} {w : List Char}
    (hc : c ∈ capitalizeWord w) (hw : ∀ d ∈ w, isLowerDigit d = true) :
    c ≠ '_' := by
  cases w with
  | nil => cases hc
  | cons d ds =>
    rcases List.mem_cons.mp hc with rfl | hc2
    · exact toUpper_ne_underscore (hw d (List.mem_cons_self d ds))
    · exact ne_underscore_of_lowerDigit (hw c (List.mem_cons_of_mem d hc2))

theorem splitUnderscore_ne_nil (l : List Char) : splitUnderscore l ≠ [] := by
  cases l with
  | nil => simp [splitUnderscore]
  | cons c rest =>
    unfold splitUnderscore
    by_cases hc : c = '_'
    · simp [hc]
    · rw [if_neg hc]
      cases hs : splitUnderscore rest <;> simp

theorem splitUnderscore_no_underscore {l : List Char} (h : '_' ∉ l) :
    splitUnderscore l = [l] := by
  induction l with
  | nil => rfl
  | cons c rest ih =>
    have hc : c ≠ '_' := fun e => h (by rw [e]; exact List.mem_cons_self _ _)
    have hrest : '_' ∉ rest := fun hm => h (List.mem_cons_of_mem c hm)
    unfold splitUnderscore
    rw [if_neg (fun e => hc e), ih hrest]

theorem camelJoin_no_underscore {l : List Char} (h : isSnakeKey l = true) :
    '_' ∉ camelJoin l := by
  unfold isSnakeKey at h
  simp only [Bool.and_eq_true, List.all_eq_true] at h
  obtain ⟨-, hall⟩ := h
  unfold camelJoin
  cases hs : splitUnderscore l with
  | nil => exact absurd hs (splitUnderscore_ne_nil l)
  | cons w ws =>
    rw [hs] at hall
    intro hmem
    rcases List.mem_append.mp hmem with hmem | hmem
    · have hw := hall w (List.mem_cons_self w ws)
      simp only [Bool.and_eq_true, List.all_eq_true] at hw
      exact absurd (hw.2 '_' hmem) (by decide)
    · rw [List.mem_flatten] at hmem
      obtain ⟨cw, hcw, hmm⟩ := hmem
      rw [List.mem_map] at hcw
      obtain ⟨w2, hw2mem, rfl⟩ := hcw
      have hw2 := hall w2 (List.mem_cons_of_mem w hw2mem)
      simp only [Bool.and_eq_true, List.all_eq_true] at hw2
      exact mem_capitalizeWord_ne_underscore hmm hw2.2 rfl

theorem camelKey_idem (s : String) : camelKey (camelKey s) = camelKey s := by
  by_cases h : isSnakeKey s.toList = true
  · have h1 : camelKey s = String.mk (camelJoin s.toList) := by
      unfold camelKey
      rw [if_pos h]
    rw [h1]
    have htl : (String.mk (camelJoin s.toList)).toList = camelJoin s.toList := rfl
    have hnu : '_' ∉ camelJoin s.toList := camelJoin_no_underscore h
    have hfix : ∀ r : List Char, '_' ∉ r → camelJoin r = r := by
      intro r hr
      unfold camelJoin
      rw [splitUnderscore_no_underscore hr]
      simp
    have hjr : camelJoin (camelJoin s.toList) = camelJoin s.toList :=
      hfix _ hnu
    unfold camelKey
    rw [htl]
    by_cases h2 : isSnakeKey (camelJoin s.toList) = true
    · rw [if_pos h2, hjr]
    · rw [if_neg h2]
  · have h1 : camelKey s = s := by
      unfold camelKey
      rw [if_neg h]
    rw [h1, h1]

mutual

theorem toCamelCase_idemAux : (x : Json) →
    toCamelCase (toCamelCase x) = toCamelCase x
  | .null => rfl
  | .bool _ => rfl
  | .num _ => rfl
  | .str _ => rfl
  | .arr el => by
    rw [toCamelCase, toCamelCase, toCamelCaseList_idemAux el]
  | .obj fields => by
    rw [toCamelCase, toCamelCase, toCamelCaseFields_idemAux fields]

theorem toCamelCaseList_idemAux : (l : List Json) →
    toCamelCaseList (toCamelCaseList l) = toCamelCaseList l
  | [] => rfl
  | v :: rest => by
    rw [toCamelCaseList, toCamelCaseList, toCamelCase_idemAux v,
      toCamelCaseList_idemAux rest]

theorem toCamelCaseFields_idemAux : (l : List (String × Json)) →
    toCamelCaseFields (toCamelCaseFields l) = toCamelCaseFields l
  | [] => rfl
  | (k, v) :: rest => by
    rw [toCamelCaseFields, toCamelCaseFields, camelKey_idem k,
      toCamelCase_idemAux v, toCamelCaseFields_idemAux rest]

end

/-- C7.  The normalizer is idempotent: re-normalizing an
already-normalized value changes nothing. -/
theorem normalizeWebhookData_idem (x : Json) :
    normalizeWebhookData (normalizeWebhookData x) = normalizeWebhookData x :=
  toCamelCase_idemAux x

mutual

/-- Shape skeleton of a JSON value: every object key is blanked, all
container structure and every non-key value is kept. -/
def stripKeys : Json → Json
  | .null => .null
  | .bool b => .bool b
  | .num n => .num n
  | .str s => .str s
  | .arr el => .arr (stripKeysList el)
  | .obj fields => .obj (stripKeysFields fields)

/-- `stripKeys` over array elements. -/
def stripKeysList : List Json → List Json
  | [] => []
  | v :: rest => stripKeys v :: stripKeysList rest

/-- `stripKeys` over object fields. -/
def stripKeysFields : List (String × Json) → List (String × Json)
  | [] => []
  | (_, v) :: rest => ("", stripKeys v) :: stripKeysFields rest

end

mutual

theorem stripKeys_toCamelCaseAux : (x : Json) →
    stripKeys (toCamelCase x) = stripKeys x
  | .null => rfl
  | .bool _ => rfl
  | .num _ => rfl
  | .str _ => rfl
  | .arr el => by
    rw [toCamelCase, stripKeys, stripKeys, stripKeysList_toCamelCaseAux el]
  | .obj fields => by
    rw [toCamelCase, stripKeys, stripKeys, stripKeysFields_toCamelCaseAux fields]

theorem stripKeysList_toCamelCaseAux : (l : List Json) →
    stripKeysList (toCamelCaseList l) = stripKeysList l
  | [] => rfl
  | v :: rest => by
    rw [toCamelCaseList, stripKeysList, stripKeysList,
      stripKeys_toCamelCaseAux v, stripKeysList_toCamelCaseAux rest]

theorem stripKeysFields_toCamelCaseAux : (l : List (String × Json)) →
    stripKeysFields (toCamelCaseFields l) = stripKeysFields l
  | [] => rfl
  | (k, v) :: rest => by
    rw [toCamelCaseFields, stripKeysFields, stripKeysFields,
      stripKeys_toCamelCaseAux v, stripKeysFields_toCamelCaseAux rest]

end

/-- C8.  Normalization only renames keys: stripping all object keys
from `normalize(x)` gives exactly the stripped `x` (so every mapping
keeps its number and order of entries, every sequence its length and
element shapes), and scalars are returned untouched. -/
theorem normalizeWebhookData_shape :
    (∀ x, stripKeys (normalizeWebhookData x) = stripKeys x) ∧
    normalizeWebhookData .null = .null ∧
    (∀ b, normalizeWebhookData (.bool b) = .bool b) ∧
    (∀ n : Int, normalizeWebhookData (.num n) = .num n) ∧
    (∀ s, normalizeWebhookData (.str s) = .str s) :=
  ⟨fun x => stripKeys_toCamelCaseAux x, rfl, fun _ => rfl, fun _ => rfl,
   fun _ => rfl⟩

/-! ## Spread semantics (C9, C10) -/

theorem assoc_setKey_self (l : List (String × Json)) (k : String) (v : Json) :
    assoc (setKey l k v) k = some v := by
  induction l with
  | nil => simp [setKey, assoc]
  | cons p rest ih =>
    obtain ⟨k', v'⟩ := p
    unfold setKey
    by_cases hk : k' = k
    · simp [assoc, hk]
    · rw [if_neg hk]
      unfold assoc
      rw [if_neg hk]
      exact ih

theorem assoc_setKey_other (l : List (String × Json)) {k k' : String}
    (v : Json) (h : k' ≠ k) : assoc (setKey l k v) k' = assoc l k' := by
  have hne : ¬k = k' := fun e => h e.symm
  induction l with
  | nil =>
    show assoc [(k, v)] k' = assoc [] k'
    unfold assoc
    rw [if_neg hne]
    rfl
  | cons p rest ih =>
    obtain ⟨k0, v0⟩ := p
    unfold setKey
    by_cases hk : k0 = k
    · rw [if_pos hk]
      subst hk
      unfold assoc
      rw [if_neg hne, if_neg hne]
    · rw [if_neg hk]
      unfold assoc
      by_cases hk0 : k0 = k'
      · rw [if_pos hk0, if_pos hk0]
      · rw [if_neg hk0, if_neg hk0]
        exact ih

theorem assoc_foldl_not_mem (kvs : List (String × Json)) :
    ∀ (acc : List (String × Json)) (k : String), k ∉ kvs.map Prod.fst →
    assoc (kvs.foldl (fun acc p => setKey acc p.1 p.2) acc) k = assoc acc k := by
  induction kvs with
  | nil => intro acc k _; rfl
  | cons p rest ih =>
    intro acc k hk
    obtain ⟨k0, v0⟩ := p
    rw [List.map_cons, List.mem_cons] at hk
    push_neg at hk
    obtain ⟨hk0, hrest⟩ := hk
    rw [List.foldl_cons, ih _ k hrest, assoc_setKey_other _ _ hk0]

theorem spread_base_irrelevant (kvs : List (String × Json)) :
    ∀ (b1 b2 : List (String × Json)) (k : String), k ∈ kvs.map Prod.fst →
    assoc (kvs.foldl (fun acc p => setKey acc p.1 p.2) b1) k =
    assoc (kvs.foldl (fun acc p => setKey acc p.1 p.2) b2) k := by
  induction kvs with
  | nil =>
    intro _ _ k hk
    cases hk
  | cons p rest ih =>
    intro b1 b2 k hk
    obtain ⟨k0, v0⟩ := p
    rw [List.foldl_cons, List.foldl_cons]
    by_cases hr : k ∈ rest.map Prod.fst
    · exact ih _ _ k hr
    · have hk0 : k = k0 := by
        rw [List.map_cons, List.mem_cons] at hk
        tauto
      subst hk0
      rw [assoc_foldl_not_mem rest _ k hr, assoc_foldl_not_mem rest _ k hr,
        assoc_setKey_self, assoc_setKey_self]

/-- Concrete payload used by C9: the entity carries the wire key
`webhook_event_type`, which normalizes to `webhookEventType` and then
collides with the wrapper field of the same name. -/
def c9Payload : String :=
  "\x7b\"id\":\"e9\",\"eventType\":\"checkout.completed\",\"created_at\":5,\"object\":\x7b\"object\":\"checkout\",\"webhook_event_type\":\"evil\"\x7d\x7d"

/-- Handlers used by C9. -/
def c9Handlers : Handlers Unit where
  onCheckoutCompleted := some fun _ => .ok ()

/-- The argument the C9 handler actually receives: the entity's value
sits under `webhookEventType`, in the wrapper field's position. -/
def c9Ctx : Json :=
  .obj [("webhookEventType", .str "evil"), ("webhookId", .str "e9"),
        ("webhookCreatedAt", .num 5), ("object", .str "checkout")]

set_option maxRecDepth 100000 in
/-- C9.  Handler arguments are built by assigning the normalized
entity's fields over the wrapper fields (JS spread after the wrapper):
whenever the entity carries a wrapper key, the wrapper's value is
irrelevant (the lookup agrees with spreading over an empty base), for
specific-event contexts and access-control contexts alike; concretely,
a verified `checkout.completed` payload whose entity holds
`webhook_event_type: "evil"` hands the handler `webhookEventType =
"evil"`, not the envelope's event type. -/
theorem handler_arg_spread_override :
    (∀ (ev : Json) (kvs : List (String × Json)) (k : String),
      k ∈ kvs.map Prod.fst →
      lookupField (specificCtx ev (.obj kvs)) k =
        assoc (spreadFields [] (.obj kvs)) k) ∧
    (∀ (reason : String) (kvs : List (String × Json)) (k : String),
      k ∈ kvs.map Prod.fst →
      lookupField (accessCtx reason (.obj kvs)) k =
        assoc (spreadFields [] (.obj kvs)) k) ∧
    (handleEvents (ε := Unit) (some "c9s") c9Payload
        (generateSignature c9Payload "c9s") c9Handlers =
      ([⟨"onCheckoutCompleted", c9Ctx⟩], .ok ()) ∧
     lookupField c9Ctx "webhookEventType" = some (.str "evil") ∧
     Json.str "evil" ≠ .str "checkout.completed") := by
  refine ⟨?_, ?_, ?_, rfl, by simp⟩
  · intro ev kvs k hk
    show assoc (kvs.foldl (fun acc p => setKey acc p.1 p.2) _) k =
      assoc (kvs.foldl (fun acc p => setKey acc p.1 p.2) []) k
    exact spread_base_irrelevant kvs _ [] k hk
  · intro reason kvs k hk
    show assoc (kvs.foldl (fun acc p => setKey acc p.1 p.2) _) k =
      assoc (kvs.foldl (fun acc p => setKey acc p.1 p.2) []) k
    exact spread_base_irrelevant kvs _ [] k hk
  · unfold handleEvents
    rw [if_neg (by decide)]
    simp only [Option.getD_some]
    rw [verifySignature_eq]
    simp only [decide_eq_true_eq, decide_True, eq_self_iff_true]
    rfl

/-- Witness for C9's universally quantified parts at concrete inputs:
an entity key `webhookEventType` (specific context) and an entity key
`reason` (access context) override the wrapper. -/
theorem handler_arg_spread_override_witness :
    lookupField (specificCtx .null (.obj [("webhookEventType", .str "x")]))
        "webhookEventType" =
      assoc (spreadFields [] (.obj [("webhookEventType", .str "x")]))
        "webhookEventType" ∧
    lookupField (accessCtx "subscription_active" (.obj [("reason", .str "y")]))
        "reason" =
      assoc (spreadFields [] (.obj [("reason", .str "y")])) "reason" :=
  ⟨handler_arg_spread_override.1 .null [("webhookEventType", .str "x")]
     "webhookEventType" (by simp),
   handler_arg_spread_override.2.1 "subscription_active"
     [("reason", .str "y")] "reason" (by simp)⟩

set_option maxRecDepth 100000 in
/-- C10.  Acceptance requires the camelCase key `eventType` together
with the snake_case key `created_at`: every accepted envelope carries
both; a payload using `event_type`, or `createdAt` in place of
`created_at`, is rejected as malformed; and (absent an entity-side
collision) the dispatched `webhookCreatedAt` wrapper value is the
wire's `created_at` value verbatim. -/
theorem parse_requires_wire_keys {ε : Type} :
    (∀ fields, isWebhookEvent (.obj fields) = true →
      (∃ s, assoc fields "eventType" = some (.str s)) ∧
      (∃ n : Int, assoc fields "created_at" = some (.num n))) ∧
    (parseWebhookEvent ε
        "\x7b\"id\":\"c10\",\"event_type\":\"x.y\",\"created_at\":7,\"object\":\x7b\"object\":\"order\"\x7d\x7d"
      = .error (.errorMsg "Invalid webhook event structure")) ∧
    (parseWebhookEvent ε
        "\x7b\"id\":\"c10\",\"eventType\":\"x.y\",\"createdAt\":7,\"object\":\x7b\"object\":\"order\"\x7d\x7d"
      = .error (.errorMsg "Invalid webhook event structure")) ∧
    (∀ (ev : Json) (kvs : List (String × Json)),
      "webhookCreatedAt" ∉ kvs.map Prod.fst →
      lookupField (specificCtx ev (.obj kvs)) "webhookCreatedAt" =
        some (eventField ev "created_at")) := by
  refine ⟨?_, by rfl, by rfl, ?_⟩
  · intro fields hw
    obtain ⟨f2, heq, he, _, hc, _⟩ := (isWebhookEvent_true_iff _).mp hw
    injection heq with hf
    subst hf
    exact ⟨he, hc⟩
  · intro ev kvs hk
    show assoc (kvs.foldl (fun acc p => setKey acc p.1 p.2)
        [("webhookEventType", eventField ev "eventType"),
         ("webhookId", eventField ev "id"),
         ("webhookCreatedAt", eventField ev "created_at")]) "webhookCreatedAt" =
      some (eventField ev "created_at")
    rw [assoc_foldl_not_mem kvs _ _ hk]
    rfl

/-- Witness for C10's universally quantified parts at concrete inputs:
a well-formed envelope carries both wire keys, and a collision-free
entity leaves `webhookCreatedAt` at the wire's `created_at` value. -/
theorem parse_requires_wire_keys_witness :
    ((∃ s, assoc [("eventType", Json.str "a"), ("id", Json.str "b"),
        ("created_at", Json.num 3),
        ("object", Json.obj [("object", Json.str "product")])] "eventType" =
        some (.str s)) ∧
     (∃ n : Int, assoc [("eventType", Json.str "a"), ("id", Json.str "b"),
        ("created_at", Json.num 3),
        ("object", Json.obj [("object", Json.str "product")])] "created_at" =
        some (.num n))) ∧
    lookupField
        (specificCtx (.obj [("created_at", .num 9)]) (.obj [("foo", .null)]))
        "webhookCreatedAt" =
      some (eventField (.obj [("created_at", .num 9)]) "created_at") :=
  ⟨(parse_requires_wire_keys (ε := Unit)).1
     [("eventType", Json.str "a"), ("id", Json.str "b"),
      ("created_at", Json.num 3),
      ("object", Json.obj [("object", Json.str "product")])] (by rfl),
   (parse_requires_wire_keys (ε := Unit)).2.2.2
     (.obj [("created_at", .num 9)]) [("foo", .null)] (by simp)⟩

end Creem
